import Mathlib

/-!
Verification of the bit-banged 1-wire bus master driver (`onewire.cpp` /
`onewire.h`).

The development shallowly embeds the driver:

* the CRC-8/Maxim checksum (`crcUpdate8`, `crc8CheckIButton`) becomes a pure
  fold over `Nat` values reduced mod 256, with the `uint8_t` loop counter of
  `crc8CheckIButton` modelled by an explicitly fuelled loop;
* the byte primitives (`writeByte`, `readByte`) become functions producing and
  consuming the least-significant-bit-first bit sequences that the C loops
  emit via `writeBit` and collect via `readBit`;
* the timing-level primitives (`writeBit`, `writeByte` with pullup,
  `activePullupDisable`, `resetAndPresenceDetection`) become producers of
  event traces over the GPIO/interrupt port, with small state machines giving
  the interrupt-enable state and the pin drive state after a trace;
* the enumeration engine (`discoverDevices`, `discoveryDevicesRecursive`)
  becomes a state-passing interpreter against a bus oracle that answers each
  bit read and each reset from the history of operations performed so far.

The driver is compiled with `ONEWIRE_SUPPORT_ENUMERATION` (set in the header)
and without `ONEWIRE_ACTIVE_PULLUP`, so the embeddings follow the
corresponding preprocessor branches of the source.
-/

namespace OneWire

/-! ## CRC-8/Maxim (`crcUpdate8`, `crc8CheckIButton`, onewire.cpp 253-278) -/

/-- One round of the CRC-8/Maxim update from the loop body of `crcUpdate8`
(onewire.cpp 257-261): if the low bit is set, shift right and XOR `0x8C`,
else just shift right. -/
def crcRound (crc : Nat) : Nat :=
  if crc % 2 = 1 then (crc / 2) ^^^ 0x8C else crc / 2

/-- `n` iterations of `crcRound`; the `for` loop of `crcUpdate8` performs 8. -/
def crcRounds : Nat → Nat → Nat
  | 0, crc => crc
  | n + 1, crc => crcRounds n (crcRound crc)

/-- `crcUpdate8(crc, data)` (onewire.cpp 253-264): XOR the data byte into the
running checksum, then perform 8 shift/XOR rounds.  Both arguments live in
`uint8_t` variables in C, hence the reduction mod 256 on entry. -/
def crcUpdate8 (crc data : Nat) : Nat :=
  crcRounds 8 ((crc % 256) ^^^ (data % 256))

/-- `crcUpdate8` folded over a byte list from a given running checksum. -/
def crcFold (crc : Nat) : List Nat → Nat
  | [] => crc
  | d :: ds => crcFold (crcUpdate8 crc d) ds

/-- The loop of `crc8CheckIButton` (onewire.cpp 273-275) with its `uint8_t`
counter `i`: the counter advances as `(i + 1) % 256` while the guard compares
it against the `unsigned int` length `dwLen`.  The C loop does not terminate
for every `dwLen` (claim C10), so the embedding takes explicit fuel and
answers `none` when the fuel is exhausted before the guard fails. -/
def crc8CheckLoop (data : Nat → Nat) (dwLen : Nat) : Nat → Nat → Nat → Option Nat
  | 0, _, _ => none
  | fuel + 1, i, crc =>
    if i < dwLen then
      crc8CheckLoop data dwLen fuel ((i + 1) % 256) (crcUpdate8 crc (data i))
    else
      some crc

/-- `crc8CheckIButton(lpData, dwLen, crcToCheck)` (onewire.cpp 270-278):
start the checksum at 0, fold in the first `dwLen` data bytes, fold in the
expected checksum itself, and report whether the result is 0.  The data
pointer is modelled as a function from indices to bytes; `none` means the
`uint8_t`-counter loop did not finish within the given fuel. -/
def crc8CheckIButton (fuel : Nat) (data : Nat → Nat) (dwLen crcToCheck : Nat) :
    Option Bool :=
  (crc8CheckLoop data dwLen fuel 0 0).map (fun crc => crcUpdate8 crc crcToCheck == 0)

/-- The value `crc8CheckIButton` computes in its terminating cases
(`dwLen ≤ 255`), phrased over a byte list: fold all data bytes from 0, fold in
the expected checksum, compare with 0.  `crc8CheckIButton_eq_list` proves the
agreement with the fuelled embedding; the driver itself only ever calls the
function with `dwLen = 7`. -/
def crc8CheckList (d : List Nat) (crcToCheck : Nat) : Bool :=
  crcUpdate8 (crcFold 0 d) crcToCheck == 0

theorem crcFold_nil (crc : Nat) : crcFold crc [] = crc := rfl

theorem crcFold_cons (crc x : Nat) (xs : List Nat) :
    crcFold crc (x :: xs) = crcFold (crcUpdate8 crc x) xs := rfl

theorem crcRounds_succ (n crc : Nat) :
    crcRounds (n + 1) crc = crcRounds n (crcRound crc) := rfl

theorem crc8CheckLoop_zero (data : Nat → Nat) (dwLen i crc : Nat) :
    crc8CheckLoop data dwLen 0 i crc = none := rfl

theorem crc8CheckLoop_succ (data : Nat → Nat) (dwLen fuel i crc : Nat) :
    crc8CheckLoop data dwLen (fuel + 1) i crc =
      if i < dwLen then
        crc8CheckLoop data dwLen fuel ((i + 1) % 256) (crcUpdate8 crc (data i))
      else
        some crc := rfl

theorem crcRound_lt (crc : Nat) (h : crc < 256) : crcRound crc < 256 := by
  unfold crcRound
  split
  · have h1 : crc / 2 < 128 := by omega
    have h2 : (0x8C : Nat) < 2 ^ 8 := by norm_num
    have h3 : crc / 2 < 2 ^ 8 := lt_of_lt_of_le h1 (by norm_num)
    have h4 := Nat.xor_lt_two_pow h3 h2
    simpa using h4
  · omega

theorem crcRounds_lt (n crc : Nat) (h : crc < 256) : crcRounds n crc < 256 := by
  induction n generalizing crc with
  | zero => exact h
  | succ n ih => exact ih (crcRound crc) (crcRound_lt crc h)

theorem crcUpdate8_lt (crc data : Nat) : crcUpdate8 crc data < 256 := by
  unfold crcUpdate8
  apply crcRounds_lt
  have h1 : crc % 256 < 2 ^ 8 := by
    have h := Nat.mod_lt crc (show 0 < 256 by norm_num)
    simpa using h
  have h2 : data % 256 < 2 ^ 8 := by
    have h := Nat.mod_lt data (show 0 < 256 by norm_num)
    simpa using h
  have h3 := Nat.xor_lt_two_pow h1 h2
  simpa using h3

theorem crcFold_lt (d : List Nat) (crc : Nat) (h : crc < 256) : crcFold crc d < 256 := by
  induction d generalizing crc with
  | nil => exact h
  | cons x xs ih =>
    rw [crcFold_cons]
    exact ih (crcUpdate8 crc x) (crcUpdate8_lt crc x)

theorem crcFold_append (d e : List Nat) (crc : Nat) :
    crcFold crc (d ++ e) = crcFold (crcFold crc d) e := by
  induction d generalizing crc with
  | nil => rfl
  | cons x xs ih =>
    rw [List.cons_append, crcFold_cons, crcFold_cons]
    exact ih (crcUpdate8 crc x)

set_option maxHeartbeats 4000000 in
set_option maxRecDepth 8192 in
/-- 8 rounds of the CRC update are injective on bytes, in the form used below:
the only byte they fold to 0 is 0 itself. -/
theorem crcRounds8_eq_zero_iff (x : Nat) (h : x < 256) :
    crcRounds 8 x = 0 ↔ x = 0 := by
  have hall : ∀ y : Fin 256, crcRounds 8 y.val = 0 ↔ y.val = 0 := by decide
  exact hall ⟨x, h⟩

/-- Folding a byte into a matching running checksum yields 0. -/
theorem crcUpdate8_self (s : Nat) : crcUpdate8 s s = 0 := by
  unfold crcUpdate8
  rw [Nat.xor_self]
  decide

/-- Folding a byte into a running checksum yields 0 exactly when the byte
equals the running checksum. -/
theorem crcUpdate8_eq_zero_iff (s c : Nat) (hs : s < 256) (hc : c < 256) :
    crcUpdate8 s c = 0 ↔ c = s := by
  unfold crcUpdate8
  rw [Nat.mod_eq_of_lt hs, Nat.mod_eq_of_lt hc]
  have hxor : s ^^^ c < 256 := by
    have h1 : s < 2 ^ 8 := by simpa using hs
    have h2 : c < 2 ^ 8 := by simpa using hc
    simpa using Nat.xor_lt_two_pow h1 h2
  rw [crcRounds8_eq_zero_iff (s ^^^ c) hxor, Nat.xor_eq_zero]
  exact ⟨fun h => h.symm, fun h => h.symm⟩

/-- In the terminating regime `dwLen ≤ 255` the `uint8_t` counter never wraps:
running the loop with fuel `t.length + 1` from index `i` consumes exactly the
bytes `t` and returns the fold. -/
theorem crc8CheckLoop_eq_fold (data : Nat → Nat) (dwLen : Nat) (hlen : dwLen ≤ 255)
    (t : List Nat) (i crc : Nat) (hi : i + t.length = dwLen)
    (hdata : ∀ j, j < t.length → data (i + j) = t.getD j 0) :
    crc8CheckLoop data dwLen (t.length + 1) i crc = some (crcFold crc t) := by
  induction t generalizing i crc with
  | nil =>
    simp only [List.length_nil, Nat.add_zero] at hi
    rw [crc8CheckLoop_succ, if_neg (by omega), crcFold_nil]
  | cons x xs ih =>
    have hilt : i < dwLen := by
      simp only [List.length_cons] at hi
      omega
    have hmod : (i + 1) % 256 = i + 1 := Nat.mod_eq_of_lt (by omega)
    have hx : data i = x := by
      have h0 := hdata 0 (by simp)
      simpa using h0
    have hxs : ∀ j, j < xs.length → data (i + 1 + j) = xs.getD j 0 := by
      intro j hj
      have h1 := hdata (j + 1) (by simp only [List.length_cons]; omega)
      have h2 : i + (j + 1) = i + 1 + j := by omega
      simpa [h2] using h1
    have hi2 : (i + 1) + xs.length = dwLen := by
      simp only [List.length_cons] at hi
      omega
    calc crc8CheckLoop data dwLen ((x :: xs).length + 1) i crc
        = crc8CheckLoop data dwLen (xs.length + 1) (i + 1) (crcUpdate8 crc (data i)) := by
          rw [List.length_cons, crc8CheckLoop_succ, if_pos hilt, hmod]
      _ = some (crcFold (crcUpdate8 crc x) xs) := by
          rw [hx]
          exact ih (i + 1) (crcUpdate8 crc x) hi2 hxs
      _ = some (crcFold crc (x :: xs)) := by rw [crcFold_cons]

/-- `crc8CheckIButton` on a byte list `d` of length at most 255 terminates and
computes `crc8CheckList`. -/
theorem crc8CheckIButton_eq_list (d : List Nat) (c : Nat) (hlen : d.length ≤ 255) :
    crc8CheckIButton (d.length + 1) (fun i => d.getD i 0) d.length c =
      some (crc8CheckList d c) := by
  unfold crc8CheckIButton crc8CheckList
  rw [crc8CheckLoop_eq_fold (fun i => d.getD i 0) d.length hlen d 0 0 (by omega)
    (fun j hj => by simp)]
  rfl

/-- With `dwLen ≥ 256` the guard `i < dwLen` can never fail (the `uint8_t`
counter stays below 256), so the loop exhausts any amount of fuel. -/
theorem crc8CheckLoop_none_of_ge (data : Nat → Nat) (dwLen : Nat) (hlen : 256 ≤ dwLen) :
    ∀ fuel i crc, i < 256 → crc8CheckLoop data dwLen fuel i crc = none := by
  intro fuel
  induction fuel with
  | zero => intro i crc _; rfl
  | succ fuel ih =>
    intro i crc hi
    have hilt : i < dwLen := lt_of_lt_of_le hi hlen
    rw [crc8CheckLoop_succ, if_pos hilt]
    exact ih ((i + 1) % 256) (crcUpdate8 crc (data i)) (Nat.mod_lt _ (by norm_num))

/-- C3: `crc8CheckIButton(d, n, c)` starts a running checksum at 0, folds in
each of the `n` data bytes and then `c` itself (XOR followed by 8 rounds of
shift-right with conditional XOR `0x8C`), and returns true iff the result is
0; consequently appending the CRC-8/Maxim checksum of `d` makes the whole
fold equal zero, and validation succeeds exactly when `c` is that checksum.
The length bound `d.length ≤ 255` confines the statement to the calls on
which the `uint8_t`-counter loop terminates (see C10); the driver only calls
the function with length 7. -/
theorem claim_C3_crc8_validation (d : List Nat) (c : Nat) (hlen : d.length ≤ 255)
    (hc : c < 256) :
    crc8CheckIButton (d.length + 1) (fun i => d.getD i 0) d.length c =
      some (crc8CheckList d c)
    ∧ (crc8CheckIButton (d.length + 1) (fun i => d.getD i 0) d.length c = some true
        ↔ c = crcFold 0 d)
    ∧ crcFold 0 (d ++ [crcFold 0 d]) = 0 := by
  have hbridge := crc8CheckIButton_eq_list d c hlen
  refine ⟨hbridge, ?_, ?_⟩
  · rw [hbridge]
    have hfold : crcFold 0 d < 256 := crcFold_lt d 0 (by norm_num)
    have hiff := crcUpdate8_eq_zero_iff (crcFold 0 d) c hfold hc
    unfold crc8CheckList
    constructor
    · intro h
      have hb : (crcUpdate8 (crcFold 0 d) c == 0) = true := by
        injection h
      exact hiff.mp (by simpa using hb)
    · intro h
      have hz : crcUpdate8 (crcFold 0 d) c = 0 := hiff.mpr h
      simp [hz]
  · rw [crcFold_append]
    simpa [crcFold_nil, crcFold_cons] using crcUpdate8_self (crcFold 0 d)

/-- Witness for C3 at the concrete 7-byte payload `[1,2,3,4,5,6,7]` with
expected checksum 0. -/
theorem claim_C3_witness :
    (crc8CheckIButton 8 (fun i => [1, 2, 3, 4, 5, 6, 7].getD i 0) 7 0 =
        some (crc8CheckList [1, 2, 3, 4, 5, 6, 7] 0)
      ∧ (crc8CheckIButton 8 (fun i => [1, 2, 3, 4, 5, 6, 7].getD i 0) 7 0 = some true
          ↔ (0 : Nat) = crcFold 0 [1, 2, 3, 4, 5, 6, 7])
      ∧ crcFold 0 ([1, 2, 3, 4, 5, 6, 7] ++ [crcFold 0 [1, 2, 3, 4, 5, 6, 7]]) = 0) :=
  claim_C3_crc8_validation [1, 2, 3, 4, 5, 6, 7] 0 (by norm_num) (by norm_num)

/-- C10: `crc8CheckIButton` iterates with an 8-bit (`uint8_t`) counter
compared against the `unsigned int` length `dwLen`, so it terminates for every
call with `dwLen ≤ 255` (some fuel — namely `dwLen + 1` — suffices), while for
`dwLen ≥ 256` the counter wraps mod 256, the guard never fails, and no amount
of fuel makes the loop exit. -/
theorem claim_C10_loop_counter (data : Nat → Nat) (dwLen c : Nat) :
    (dwLen ≤ 255 → ∃ b, crc8CheckIButton (dwLen + 1) data dwLen c = some b)
    ∧ (256 ≤ dwLen → ∀ fuel, crc8CheckIButton fuel data dwLen c = none) := by
  constructor
  · intro hlen
    have hlen2 : ((List.range dwLen).map data).length = dwLen := by simp
    have hdata : ∀ j, j < ((List.range dwLen).map data).length →
        data (0 + j) = ((List.range dwLen).map data).getD j 0 := by
      intro j hj
      rw [List.getD_eq_getElem ((List.range dwLen).map data) 0 hj]
      simp at hj
      simp [hj]
    have h := crc8CheckLoop_eq_fold data dwLen hlen ((List.range dwLen).map data) 0 0
      (by simp) hdata
    refine ⟨crcUpdate8 (crcFold 0 ((List.range dwLen).map data)) c == 0, ?_⟩
    unfold crc8CheckIButton
    rw [hlen2] at h
    rw [h]
    rfl
  · intro hlen fuel
    unfold crc8CheckIButton
    rw [crc8CheckLoop_none_of_ge data dwLen hlen fuel 0 0 (by norm_num)]
    rfl

/-- Witness for C10: the driver's own call shape (`dwLen = 7`) terminates,
and `dwLen = 256` exhausts an arbitrary amount of fuel (here 1000). -/
theorem claim_C10_witness :
    (∃ b, crc8CheckIButton 8 (fun _ => 0) 7 0 = some b)
    ∧ crc8CheckIButton 1000 (fun _ => 0) 256 0 = none :=
  ⟨(claim_C10_loop_counter (fun _ => 0) 7 0).1 (by norm_num),
    (claim_C10_loop_counter (fun _ => 0) 256 0).2 (by norm_num) 1000⟩

/-! ## Byte transport (`writeByte` onewire.cpp 136-159, `readByte` 195-207) -/

/-- The do-while of `writeByte` (onewire.cpp 137-141): `mask` starts at 1 and
doubles inside a `uint8_t` (so `0x80 << 1` wraps to 0 and ends the loop); each
iteration hands `byte & mask` to `writeBit`, which drives a 1 slot exactly
when that value is non-zero.  Starting from mask 1 the loop runs exactly 8
times, so fuel 8 suffices (`writeByteBits`). -/
def writeByteLoopBits : Nat → Nat → Nat → List Nat
  | 0, _, _ => []
  | fuel + 1, byte, mask =>
    (if byte &&& mask ≠ 0 then 1 else 0) ::
      (if (mask <<< 1) % 256 ≠ 0 then writeByteLoopBits fuel byte ((mask <<< 1) % 256)
       else [])

/-- The bit values `writeByte(byte, _)` emits on the bus, in emission order
(least-significant bit first). -/
def writeByteBits (byte : Nat) : List Nat := writeByteLoopBits 8 byte 1

/-- The do-while of `readByte` (onewire.cpp 200-205) run against a recorded
list of sampled bit levels: `res` accumulates `mask` whenever the next sample
is non-zero, with `mask` doubling inside a `uint8_t` exactly as in
`writeByte`. -/
def readByteLoop : Nat → List Nat → Nat → Nat → Nat
  | 0, _, res, _ => res
  | fuel + 1, bits, res, mask =>
    let res2 := if bits.headD 0 ≠ 0 then res ||| mask else res
    if (mask <<< 1) % 256 ≠ 0 then readByteLoop fuel bits.tail res2 ((mask <<< 1) % 256)
    else res2

/-- `readByte()` assembling a byte from a recorded list of bit samples. -/
def readByteFromBits (bits : List Nat) : Nat := readByteLoop 8 bits 0 1

set_option maxHeartbeats 4000000 in
set_option maxRecDepth 16384 in
/-- C6: `writeByte` transmits the 8 bits of its argument least-significant-bit
first, `readByte` assembles 8 received bits least-significant-bit first, and
for every one of the 256 byte values, reading back the emitted bit sequence
over a loopback bus returns the original byte. -/
theorem claim_C6_byte_roundtrip (b : Fin 256) :
    writeByteBits b.val =
      [b.val % 2, b.val / 2 % 2, b.val / 4 % 2, b.val / 8 % 2,
       b.val / 16 % 2, b.val / 32 % 2, b.val / 64 % 2, b.val / 128 % 2]
    ∧ readByteFromBits (writeByteBits b.val) = b.val := by
  revert b
  decide

/-! ## GPIO/interrupt event traces
(`writeBit` onewire.cpp 424-453, `writeByte` 136-159, `activePullupDisable`
179-190, `resetAndPresenceDetection` 80-124) -/

/-- One externally visible action on the GPIO/interrupt port.  `modeInput`
models `pinModeInput()`, which per the header (onewire.h 208) both switches
the direction register to input and clears the output register;
`sample v` records a `pinRead()` that returned level `v`. -/
inductive Ev where
  | noInterrupts : Ev
  | interrupts : Ev
  | pinLow : Ev
  | pinHigh : Ev
  | modeInput : Ev
  | modeOutput : Ev
  | delayUs : Nat → Ev
  | sample : Nat → Ev
deriving DecidableEq, Repr

/-- The event trace of `writeBit(value, keepInterruptsDisabled)`
(onewire.cpp 424-453): a short (10 us) low pulse for a 1, a full-slot (65 us)
low pulse for a 0, ending with the pin floating; interrupts are re-enabled
only when `keepInterruptsDisabled` is false. -/
def writeBitOps (value : Nat) (keepInterruptsDisabled : Bool) : List Ev :=
  if value ≠ 0 then
    [Ev.noInterrupts, Ev.pinLow, Ev.modeOutput, Ev.delayUs 10, Ev.pinHigh,
     Ev.delayUs 55, Ev.modeInput] ++
      (if keepInterruptsDisabled then [] else [Ev.interrupts])
  else
    [Ev.noInterrupts, Ev.pinLow, Ev.modeOutput, Ev.delayUs 65, Ev.pinHigh,
     Ev.delayUs 5, Ev.modeInput] ++
      (if keepInterruptsDisabled then [] else [Ev.interrupts])

/-- The do-while of `writeByte` (onewire.cpp 137-141) at trace level: the
`uint8_t` mask doubles from 1 until it wraps to 0, and only the `mask == 0x80`
iteration passes the caller's `pullup` flag to `writeBit`. -/
def writeByteOpsLoop : Nat → Nat → Nat → Bool → List Ev
  | 0, _, _, _ => []
  | fuel + 1, byte, mask, pullup =>
    writeBitOps (byte &&& mask) (if mask = 0x80 then pullup else false) ++
      (if (mask <<< 1) % 256 ≠ 0 then writeByteOpsLoop fuel byte ((mask <<< 1) % 256) pullup
       else [])

/-- The event trace of `writeByte(byte, pullup)` (onewire.cpp 136-159), in the
build without `ONEWIRE_ACTIVE_PULLUP`: after the bit loop, a requested pullup
drives the line high (`pinHigh(); pinModeOutput();`), otherwise the pin is
floated. -/
def writeByteOps (byte : Nat) (pullup : Bool) : List Ev :=
  writeByteOpsLoop 8 byte 1 pullup ++
    (if pullup then [Ev.pinHigh, Ev.modeOutput] else [Ev.modeInput])

/-- The event trace of `activePullupDisable()` (onewire.cpp 179-190) in the
build without `ONEWIRE_ACTIVE_PULLUP`: float the pin, then unconditionally
re-enable interrupts. -/
def activePullupDisableOps : List Ev := [Ev.modeInput, Ev.interrupts]

/-- Interrupt-enable state after executing a trace from a given state. -/
def intEnabledAfter : Bool → List Ev → Bool
  | b, [] => b
  | _, Ev.noInterrupts :: rest => intEnabledAfter false rest
  | _, Ev.interrupts :: rest => intEnabledAfter true rest
  | b, _ :: rest => intEnabledAfter b rest

/-- Drive state of the data pin: direction register (output?) and output
register (high?). -/
structure PinState where
  isOutput : Bool
  outHigh : Bool
deriving DecidableEq, Repr

/-- Pin drive state after executing a trace from a given state
(`modeInput` also clears the output register, per onewire.h 208). -/
def pinAfter : PinState → List Ev → PinState
  | st, [] => st
  | st, Ev.pinLow :: rest => pinAfter { st with outHigh := false } rest
  | st, Ev.pinHigh :: rest => pinAfter { st with outHigh := true } rest
  | _, Ev.modeInput :: rest => pinAfter { isOutput := false, outHigh := false } rest
  | st, Ev.modeOutput :: rest => pinAfter { st with isOutput := true } rest
  | st, _ :: rest => pinAfter st rest

theorem intEnabledAfter_append (b : Bool) (l1 l2 : List Ev) :
    intEnabledAfter b (l1 ++ l2) = intEnabledAfter (intEnabledAfter b l1) l2 := by
  induction l1 generalizing b with
  | nil => rfl
  | cons e rest ih => cases e <;> exact ih _

theorem pinAfter_append (st : PinState) (l1 l2 : List Ev) :
    pinAfter st (l1 ++ l2) = pinAfter (pinAfter st l1) l2 := by
  induction l1 generalizing st with
  | nil => rfl
  | cons e rest ih => cases e <;> exact ih _

theorem intEnabledAfter_writeBitOps (b : Bool) (v : Nat) (keep : Bool) :
    intEnabledAfter b (writeBitOps v keep) = if keep then false else true := by
  unfold writeBitOps
  by_cases hv : v ≠ 0
  · rw [if_pos hv]
    cases keep <;> rfl
  · rw [if_neg hv]
    cases keep <;> rfl

theorem pinAfter_writeBitOps (st : PinState) (v : Nat) (keep : Bool) :
    pinAfter st (writeBitOps v keep) = ⟨false, false⟩ := by
  unfold writeBitOps
  by_cases hv : v ≠ 0
  · rw [if_pos hv]
    cases keep <;> rfl
  · rw [if_neg hv]
    cases keep <;> rfl

theorem writeByteOpsLoop_succ (fuel byte mask : Nat) (pu : Bool) :
    writeByteOpsLoop (fuel + 1) byte mask pu =
      writeBitOps (byte &&& mask) (if mask = 0x80 then pu else false) ++
        (if (mask <<< 1) % 256 ≠ 0 then
          writeByteOpsLoop fuel byte ((mask <<< 1) % 256) pu
         else []) := rfl

/-- The 8 iterations of the `writeByte` bit loop, unrolled: only the final
(mask `0x80`) call receives the pullup flag. -/
theorem writeByteOpsLoop_unrolled (byte : Nat) (pu : Bool) :
    writeByteOpsLoop 8 byte 1 pu =
      writeBitOps (byte &&& 1) false ++ (writeBitOps (byte &&& 2) false ++
      (writeBitOps (byte &&& 4) false ++ (writeBitOps (byte &&& 8) false ++
      (writeBitOps (byte &&& 16) false ++ (writeBitOps (byte &&& 32) false ++
      (writeBitOps (byte &&& 64) false ++ (writeBitOps (byte &&& 128) pu ++
      []))))))) := rfl

/-- C8: after `writeByte(b, true)` the data line is left driven high with
interrupts still disabled, and they stay so until `activePullupDisable()`,
which floats the pin and unconditionally re-enables interrupts; moreover only
the final (mask `0x80`) bit of the write loop is passed the pullup flag.  The
first conjunct exhibits the whole trace of `writeByte`, showing the write path
performs nothing after the held bit except the final drive-high — in
particular no interrupt re-enable — so the state persists until the explicit
release call whose trace the last two conjuncts append. -/
theorem claim_C8_pullup_hold (byte : Nat) (pu : Bool) :
    (writeByteOps byte pu =
      writeBitOps (byte &&& 1) false ++ (writeBitOps (byte &&& 2) false ++
      (writeBitOps (byte &&& 4) false ++ (writeBitOps (byte &&& 8) false ++
      (writeBitOps (byte &&& 16) false ++ (writeBitOps (byte &&& 32) false ++
      (writeBitOps (byte &&& 64) false ++ (writeBitOps (byte &&& 128) pu ++
      (if pu then [Ev.pinHigh, Ev.modeOutput] else [Ev.modeInput])))))))))
    ∧ intEnabledAfter true (writeByteOps byte true) = false
    ∧ pinAfter ⟨false, false⟩ (writeByteOps byte true) = ⟨true, true⟩
    ∧ intEnabledAfter true (writeByteOps byte true ++ activePullupDisableOps) = true
    ∧ pinAfter ⟨false, false⟩ (writeByteOps byte true ++ activePullupDisableOps) =
        ⟨false, false⟩ := by
  have hdec : ∀ q : Bool, writeByteOps byte q =
      writeBitOps (byte &&& 1) false ++ (writeBitOps (byte &&& 2) false ++
      (writeBitOps (byte &&& 4) false ++ (writeBitOps (byte &&& 8) false ++
      (writeBitOps (byte &&& 16) false ++ (writeBitOps (byte &&& 32) false ++
      (writeBitOps (byte &&& 64) false ++ (writeBitOps (byte &&& 128) q ++
      (if q then [Ev.pinHigh, Ev.modeOutput] else [Ev.modeInput])))))))) := by
    intro q
    unfold writeByteOps
    rw [writeByteOpsLoop_unrolled]
    simp [List.append_assoc]
  have hint : intEnabledAfter true (writeByteOps byte true) = false := by
    rw [hdec true]
    simp only [intEnabledAfter_append, intEnabledAfter_writeBitOps, if_true, if_false]
    rfl
  have hpin : pinAfter ⟨false, false⟩ (writeByteOps byte true) = ⟨true, true⟩ := by
    rw [hdec true]
    simp only [pinAfter_append, pinAfter_writeBitOps]
    rfl
  refine ⟨hdec pu, hint, hpin, ?_, ?_⟩
  · rw [intEnabledAfter_append, hint]
    rfl
  · rw [pinAfter_append, hpin]
    rfl

/-! ## Reset and presence detection (`resetAndPresenceDetection`,
onewire.cpp 80-124, retry budget onewire.h 49-51) -/

/-- The external port as the reset routine sees it: the line level returned
by the k-th poll of the idle-wait loop, and the level sampled 60 us after the
reset pulse is released. -/
structure ResetPort where
  pollLevel : Nat → Nat
  presenceLevel : Nat

/-- `ONEWIRE_RETRY_RESETWAITHIGH` (onewire.h 49-51): how many 5 us cycles the
bus may take to reach idle-high before the reset routine fails. -/
def ONEWIRE_RETRY_RESETWAITHIGH : Nat := 200

/-- The do-while idle-wait of `resetAndPresenceDetection` (onewire.cpp
96-103): decrement `retryCount` first and give up when it reaches 0,
otherwise delay 5 us, poll the line, and loop while it reads low.  Returns
whether idle-high was reached, together with the event trace.  (The
`retryCount = 0` entry case is unreachable: the driver always enters the loop
with `retryCount = ONEWIRE_RETRY_RESETWAITHIGH > 0`.) -/
def resetIdleWait (p : ResetPort) : Nat → Nat → Bool × List Ev
  | 0, _ => (false, [])
  | retryCount + 1, k =>
    if retryCount = 0 then (false, [])
    else
      let evs := [Ev.delayUs 5, Ev.sample (p.pollLevel k)]
      if p.pollLevel k = 0 then
        let rest := resetIdleWait p retryCount (k + 1)
        (rest.1, evs ++ rest.2)
      else (true, evs)

/-- `resetAndPresenceDetection()` (onewire.cpp 80-124): disable interrupts,
float the pin, wait for idle-high within the retry budget (failing without
any reset pulse if it is never reached); then drive the 480 us reset pulse,
float the pin, sample 60 us later, allow a 420 us recovery, and report
whether the sample was low (a presence pulse). -/
def resetAndPresenceDetectionOps (p : ResetPort) : Bool × List Ev :=
  if (resetIdleWait p ONEWIRE_RETRY_RESETWAITHIGH 0).1 = false then
    (false,
     [Ev.noInterrupts, Ev.modeInput] ++ (resetIdleWait p ONEWIRE_RETRY_RESETWAITHIGH 0).2)
  else
    (decide (p.presenceLevel = 0),
     [Ev.noInterrupts, Ev.modeInput] ++ (resetIdleWait p ONEWIRE_RETRY_RESETWAITHIGH 0).2 ++
       [Ev.pinLow, Ev.modeOutput, Ev.interrupts, Ev.delayUs 480, Ev.noInterrupts,
        Ev.modeInput, Ev.delayUs 60, Ev.sample p.presenceLevel, Ev.interrupts,
        Ev.delayUs 420])

theorem resetIdleWait_succ (p : ResetPort) (retryCount k : Nat) :
    resetIdleWait p (retryCount + 1) k =
      if retryCount = 0 then (false, [])
      else
        if p.pollLevel k = 0 then
          ((resetIdleWait p retryCount (k + 1)).1,
            [Ev.delayUs 5, Ev.sample (p.pollLevel k)] ++
              (resetIdleWait p retryCount (k + 1)).2)
        else (true, [Ev.delayUs 5, Ev.sample (p.pollLevel k)]) := rfl

/-- If every line poll the loop can reach reads low, the idle wait fails and
its trace consists solely of 5 us delays and low samples. -/
theorem resetIdleWait_all_low (p : ResetPort) :
    ∀ r k, (∀ j, k ≤ j → j + 1 < k + r → p.pollLevel j = 0) →
      (resetIdleWait p r k).1 = false
      ∧ ∀ e ∈ (resetIdleWait p r k).2, e = Ev.delayUs 5 ∨ e = Ev.sample 0 := by
  intro r
  induction r with
  | zero =>
    intro k _
    refine ⟨rfl, ?_⟩
    intro e he
    have h0 : (resetIdleWait p 0 k).2 = [] := rfl
    rw [h0] at he
    exact absurd he (List.not_mem_nil e)
  | succ r ih =>
    intro k hlow
    by_cases hr : r = 0
    · subst hr
      have hval : resetIdleWait p (0 + 1) k = (false, []) := rfl
      rw [hval]
      refine ⟨rfl, ?_⟩
      intro e he
      exact absurd he (List.not_mem_nil e)
    · have hk : p.pollLevel k = 0 := hlow k (le_refl k) (by omega)
      have hrec := ih (k + 1) (by intro j hj1 hj2; exact hlow j (by omega) (by omega))
      have hval : resetIdleWait p (r + 1) k =
          ((resetIdleWait p r (k + 1)).1,
            [Ev.delayUs 5, Ev.sample (p.pollLevel k)] ++ (resetIdleWait p r (k + 1)).2) := by
        rw [resetIdleWait_succ, if_neg hr, if_pos hk]
      rw [hval]
      refine ⟨hrec.1, ?_⟩
      intro e he
      simp only [List.mem_append, List.mem_cons, List.not_mem_nil, or_false] at he
      rcases he with (h1 | h2) | h3
      · exact Or.inl h1
      · rw [hk] at h2
        exact Or.inr h2
      · exact hrec.2 e h3

/-- If some poll the loop can reach reads high, the idle wait succeeds. -/
theorem resetIdleWait_some_high (p : ResetPort) :
    ∀ r k, (∃ j, k ≤ j ∧ j + 1 < k + r ∧ p.pollLevel j ≠ 0) →
      (resetIdleWait p r k).1 = true := by
  intro r
  induction r with
  | zero =>
    intro k h
    obtain ⟨j, hj1, hj2, _⟩ := h
    omega
  | succ r ih =>
    intro k h
    obtain ⟨j, hj1, hj2, hj3⟩ := h
    have hr : r ≠ 0 := by omega
    by_cases hk : p.pollLevel k = 0
    · have hjk : j ≠ k := by
        intro heq
        rw [heq] at hj3
        exact hj3 hk
      have hrec := ih (k + 1) ⟨j, by omega, by omega, hj3⟩
      rw [resetIdleWait_succ, if_neg hr, if_pos hk]
      exact hrec
    · rw [resetIdleWait_succ, if_neg hr, if_neg hk]

/-- A trace containing no interrupt-control events leaves the
interrupt-enable state unchanged. -/
theorem intEnabledAfter_of_no_int (l : List Ev) :
    ∀ b, (∀ e ∈ l, e ≠ Ev.noInterrupts ∧ e ≠ Ev.interrupts) →
      intEnabledAfter b l = b := by
  induction l with
  | nil => intro b _; rfl
  | cons e rest ih =>
    intro b h
    have he := h e (by simp)
    have hrest : ∀ e2 ∈ rest, e2 ≠ Ev.noInterrupts ∧ e2 ≠ Ev.interrupts := by
      intro e2 he2
      exact h e2 (by simp [he2])
    cases e with
    | noInterrupts => exact absurd rfl he.1
    | interrupts => exact absurd rfl he.2
    | pinLow => exact ih b hrest
    | pinHigh => exact ih b hrest
    | modeInput => exact ih b hrest
    | modeOutput => exact ih b hrest
    | delayUs n => exact ih b hrest
    | sample v => exact ih b hrest

/-- If the first 199 polls (all the loop ever performs) read low, the reset
routine fails with the bare idle-wait trace. -/
theorem resetOps_fail_of_low (p : ResetPort)
    (hlow : ∀ k, k < 199 → p.pollLevel k = 0) :
    resetAndPresenceDetectionOps p =
      (false,
       [Ev.noInterrupts, Ev.modeInput] ++ (resetIdleWait p ONEWIRE_RETRY_RESETWAITHIGH 0).2)
    ∧ ∀ e ∈ (resetIdleWait p ONEWIRE_RETRY_RESETWAITHIGH 0).2,
        e = Ev.delayUs 5 ∨ e = Ev.sample 0 := by
  have hidle := resetIdleWait_all_low p ONEWIRE_RETRY_RESETWAITHIGH 0
    (by
      intro j hj1 hj2
      have h200 : ONEWIRE_RETRY_RESETWAITHIGH = 200 := rfl
      rw [h200] at hj2
      exact hlow j (by omega))
  constructor
  · unfold resetAndPresenceDetectionOps
    rw [if_pos hidle.1]
  · exact hidle.2

/-- If some of the 199 polls the loop performs reads high, the reset routine
reaches the pulse phase and reports the presence sample. -/
theorem resetOps_success_of_high (p : ResetPort)
    (hhigh : ∃ j, j < 199 ∧ p.pollLevel j ≠ 0) :
    resetAndPresenceDetectionOps p =
      (decide (p.presenceLevel = 0),
       [Ev.noInterrupts, Ev.modeInput] ++ (resetIdleWait p ONEWIRE_RETRY_RESETWAITHIGH 0).2 ++
         [Ev.pinLow, Ev.modeOutput, Ev.interrupts, Ev.delayUs 480, Ev.noInterrupts,
          Ev.modeInput, Ev.delayUs 60, Ev.sample p.presenceLevel, Ev.interrupts,
          Ev.delayUs 420]) := by
  obtain ⟨j, hj1, hj2⟩ := hhigh
  have hidle := resetIdleWait_some_high p ONEWIRE_RETRY_RESETWAITHIGH 0
    (by
      refine ⟨j, by omega, ?_, hj2⟩
      have h200 : ONEWIRE_RETRY_RESETWAITHIGH = 200 := rfl
      rw [h200]
      omega)
  unfold resetAndPresenceDetectionOps
  rw [if_neg (by rw [hidle]; simp)]

/-- C4 (amended): `resetAndPresenceDetection()` returns false without ever
issuing the 480 us reset pulse if the line never reads idle-high within the
bounded retry budget — which is `ONEWIRE_RETRY_RESETWAITHIGH - 1 = 199` polls
at 5 us intervals, because the retry counter is decremented before each poll;
otherwise it drives the reset pulse, samples the line 60 us after release,
and returns true iff that sample is low. -/
theorem claim_C4_reset_semantics (p : ResetPort) :
    ((∀ k, k < ONEWIRE_RETRY_RESETWAITHIGH - 1 → p.pollLevel k = 0) →
      (resetAndPresenceDetectionOps p).1 = false
      ∧ Ev.delayUs 480 ∉ (resetAndPresenceDetectionOps p).2
      ∧ Ev.pinLow ∉ (resetAndPresenceDetectionOps p).2
      ∧ Ev.modeOutput ∉ (resetAndPresenceDetectionOps p).2)
    ∧ ((∃ j, j < ONEWIRE_RETRY_RESETWAITHIGH - 1 ∧ p.pollLevel j ≠ 0) →
      Ev.delayUs 480 ∈ (resetAndPresenceDetectionOps p).2
      ∧ Ev.sample p.presenceLevel ∈ (resetAndPresenceDetectionOps p).2
      ∧ ((resetAndPresenceDetectionOps p).1 = true ↔ p.presenceLevel = 0)) := by
  constructor
  · intro hlow
    have h := resetOps_fail_of_low p hlow
    rw [h.1]
    refine ⟨rfl, ?_, ?_, ?_⟩
    · intro hmem
      simp only [List.mem_append, List.mem_cons, List.not_mem_nil, or_false] at hmem
      rcases hmem with (h1 | h1) | h1
      · simp at h1
      · simp at h1
      · rcases h.2 _ h1 with h2 | h2 <;> simp at h2
    · intro hmem
      simp only [List.mem_append, List.mem_cons, List.not_mem_nil, or_false] at hmem
      rcases hmem with (h1 | h1) | h1
      · simp at h1
      · simp at h1
      · rcases h.2 _ h1 with h2 | h2 <;> simp at h2
    · intro hmem
      simp only [List.mem_append, List.mem_cons, List.not_mem_nil, or_false] at hmem
      rcases hmem with (h1 | h1) | h1
      · simp at h1
      · simp at h1
      · rcases h.2 _ h1 with h2 | h2 <;> simp at h2
  · intro hhigh
    have h := resetOps_success_of_high p hhigh
    rw [h]
    refine ⟨by simp, by simp, ?_⟩
    exact decide_eq_true_iff

/-- Witness for C4 (amended): a port whose line stays low forever fails with
no pulse; a port whose line is high at the first poll reaches the pulse and
reports the (low) presence sample. -/
theorem claim_C4_witness :
    (resetAndPresenceDetectionOps ⟨fun _ => 0, 1⟩).1 = false
    ∧ Ev.delayUs 480 ∉ (resetAndPresenceDetectionOps ⟨fun _ => 0, 1⟩).2
    ∧ Ev.delayUs 480 ∈ (resetAndPresenceDetectionOps ⟨fun _ => 1, 0⟩).2
    ∧ ((resetAndPresenceDetectionOps ⟨fun _ => 1, 0⟩).1 = true ↔ (0 : Nat) = 0) := by
  have h1 := (claim_C4_reset_semantics ⟨fun _ => 0, 1⟩).1 (fun k _ => rfl)
  have h2 := (claim_C4_reset_semantics ⟨fun _ => 1, 0⟩).2
    ⟨0, by norm_num [ONEWIRE_RETRY_RESETWAITHIGH], by norm_num⟩
  exact ⟨h1.1, h1.2.1, h2.1, h2.2.2⟩

/-- The boundary port for the C4 counterexample: the line reads low at polls
0..198 and high from poll index 199 on (i.e. at the 200th poll), and a
presence pulse would be observed. -/
def c4BoundaryPort : ResetPort :=
  ⟨fun k => if k < 199 then 0 else 1, 0⟩

/-- Counterexample to C4 as stated: this port reads idle-high at poll index
199 — within the claimed retry budget of `ONEWIRE_RETRY_RESETWAITHIGH = 200`
polls — and would report a presence pulse, yet the routine returns false and
never issues the 480 us reset pulse, because the pre-decremented retry
counter performs only 199 polls. -/
theorem claim_C4_counterexample :
    c4BoundaryPort.pollLevel (ONEWIRE_RETRY_RESETWAITHIGH - 1) ≠ 0
    ∧ c4BoundaryPort.presenceLevel = 0
    ∧ (resetAndPresenceDetectionOps c4BoundaryPort).1 = false
    ∧ Ev.delayUs 480 ∉ (resetAndPresenceDetectionOps c4BoundaryPort).2 := by
  have hlow : ∀ k, k < 199 → c4BoundaryPort.pollLevel k = 0 := by
    intro k hk
    simp [c4BoundaryPort, hk]
  have h := resetOps_fail_of_low c4BoundaryPort hlow
  refine ⟨by norm_num [c4BoundaryPort, ONEWIRE_RETRY_RESETWAITHIGH], rfl, ?_, ?_⟩
  · rw [h.1]
  · rw [h.1]
    intro hmem
    simp only [List.mem_append, List.mem_cons, List.not_mem_nil, or_false] at hmem
    rcases hmem with (h1 | h1) | h1
    · simp at h1
    · simp at h1
    · rcases h.2 _ h1 with h2 | h2 <;> simp at h2

/-- C9: when `resetAndPresenceDetection()` gives up because the line never
reached idle-high within the retry budget, its early `return false`
(onewire.cpp 99) skips the `interrupts()` call that every other return path
performs, so the function returns with interrupts still disabled. -/
theorem claim_C9_early_return_interrupts (p : ResetPort)
    (hlow : ∀ k, k < 199 → p.pollLevel k = 0) :
    (resetAndPresenceDetectionOps p).1 = false
    ∧ intEnabledAfter true (resetAndPresenceDetectionOps p).2 = false := by
  have h := resetOps_fail_of_low p hlow
  rw [h.1]
  refine ⟨rfl, ?_⟩
  rw [show ([Ev.noInterrupts, Ev.modeInput] ++
      (resetIdleWait p ONEWIRE_RETRY_RESETWAITHIGH 0).2 : List Ev) =
      [Ev.noInterrupts, Ev.modeInput] ++
      (resetIdleWait p ONEWIRE_RETRY_RESETWAITHIGH 0).2 from rfl]
  rw [intEnabledAfter_append]
  apply intEnabledAfter_of_no_int
  intro e he
  rcases h.2 e he with h2 | h2 <;> rw [h2] <;> exact ⟨by simp, by simp⟩

/-- Witness for C9: the constantly-low port returns false with interrupts
still disabled. -/
theorem claim_C9_witness :
    (resetAndPresenceDetectionOps ⟨fun _ => 0, 1⟩).1 = false
    ∧ intEnabledAfter true (resetAndPresenceDetectionOps ⟨fun _ => 0, 1⟩).2 = false :=
  claim_C9_early_return_interrupts ⟨fun _ => 0, 1⟩ (fun _ _ => rfl)

/-! ## Bus enumeration (`discoverDevices` onewire.cpp 286-312,
`discoveryDevicesRecursive` onewire.cpp 330-410) -/

/-- One step of the enumeration engine: the bus transactions it performs,
plus the internal recording of an identifier bit into `adrCurrent` (the
`record` steps let statements about the search speak about the exact order of
its operations; bus oracles are free to ignore them). -/
inductive Step where
  | readBit : Nat → Step
  | writeBit : Nat → Step
  | reset : Bool → Step
  | record : Nat → Nat → Step
deriving DecidableEq, Repr

/-- A deterministic simulated bus: the level the next `readBit()` samples and
the result of the next `resetAndPresenceDetection()`, both as functions of
the history of steps the master has performed so far. -/
structure Bus where
  readResp : List Step → Bool
  resetResp : List Step → Bool

/-- The enumeration state: the step history, the 8-byte identifier buffer
`adrCurrent`, the identifiers handed to the discovery callback so far (in
call order), and the `discoveredDevices` member — which `discoverDevices`
sets to 0 and which, faithfully to the source, nothing ever increments. -/
structure EnumState where
  hist : List Step
  adr : List Nat
  found : List (List Nat)
  discoveredDevices : Nat
deriving DecidableEq, Repr

/-- The level (0 or 1) the next `readBit()` returns. -/
def readResult (bus : Bus) (s : EnumState) : Nat :=
  if bus.readResp s.hist then 1 else 0

/-- Perform a `readBit()` timeslot; the sampled level goes into the history. -/
def pushRead (bus : Bus) (s : EnumState) : EnumState :=
  { s with hist := s.hist ++ [Step.readBit (readResult bus s)] }

/-- Perform a `writeBit(v, false)` timeslot (`writeBit` drives a 1 slot
exactly when its argument is non-zero). -/
def doWriteBit (s : EnumState) (v : Nat) : EnumState :=
  { s with hist := s.hist ++ [Step.writeBit (if v ≠ 0 then 1 else 0)] }

/-- The result the next `resetAndPresenceDetection()` reports. -/
def resetResult (bus : Bus) (s : EnumState) : Bool :=
  bus.resetResp s.hist

/-- Perform a `resetAndPresenceDetection()`. -/
def pushReset (bus : Bus) (s : EnumState) : EnumState :=
  { s with hist := s.hist ++ [Step.reset (resetResult bus s)] }

/-- Perform `writeByte(byte, false)`: 8 `writeBit` timeslots carrying the
byte's bits least-significant first (the sequence proved for `writeByte` in
claim C6). -/
def doWriteByteSteps (s : EnumState) (byte : Nat) : EnumState :=
  { s with hist := s.hist ++ (writeByteBits byte).map Step.writeBit }

/-- `adrCurrent[level / 8] &= ~(0x01 << (level % 8))` (onewire.cpp 365, 380)
plus the record of the decision; `~mask` on a `uint8_t` is `255 ^^^ mask`. -/
def clearAdrBit (s : EnumState) (level : Nat) : EnumState :=
  { s with
    adr := s.adr.set (level / 8)
      ((s.adr.getD (level / 8) 0) &&& (255 ^^^ (1 <<< (level % 8)))),
    hist := s.hist ++ [Step.record level 0] }

/-- `adrCurrent[level / 8] |= (0x01 << (level % 8))` (onewire.cpp 372, 403)
plus the record of the decision. -/
def setAdrBit (s : EnumState) (level : Nat) : EnumState :=
  { s with
    adr := s.adr.set (level / 8)
      ((s.adr.getD (level / 8) 0) ||| (1 <<< (level % 8))),
    hist := s.hist ++ [Step.record level 1] }

/-- `((adrCurrent[i / 8] & (0x01 << (i % 8))) == 0) ? 0 : 1`
(onewire.cpp 399). -/
def adrBit (s : EnumState) (i : Nat) : Nat :=
  if (s.adr.getD (i / 8) 0) &&& (1 <<< (i % 8)) = 0 then 0 else 1

/-- The replay loop of the collision branch (onewire.cpp 396-400): for each
already-decided depth `i`, read and discard the bit/complement pair, then
write the previously recorded bit back; `remaining` counts down from `level`
while `i` counts up from 0.  (The discarded reads do not touch `adrCurrent`,
so the bit written is `adrBit s i`.) -/
def replayLoop (bus : Bus) : Nat → Nat → EnumState → EnumState
  | 0, _, s => s
  | remaining + 1, i, s =>
    replayLoop bus remaining (i + 1)
      (doWriteBit (pushRead bus (pushRead bus s)) (adrBit s i))

/-- `discoveryDevicesRecursive(level, alarmSearch)` (onewire.cpp 330-410).
The recursion is embedded with explicit fuel; `discoverDevices` enters with
fuel 65 at level 0, and every recursive call increments `level` while
consuming one unit of fuel, so the fuel never reaches 0 before the
`level == 8*8` test stops the recursion, exactly as in the C source.  At
depth 64 the completed identifier is validated with
`crc8CheckIButton(adrCurrent, sizeof(adrCurrent)-1, adrCurrent[7])` — the
terminating `dwLen = 7` call, rendered by `crc8CheckList` as justified by
`crc8CheckIButton_eq_list` — and is handed to the callback (appended to
`found`) only when the check passes. -/
def discoveryDevicesRecursive (bus : Bus) (alarmSearch : Bool) :
    Nat → Nat → EnumState → EnumState
  | 0, _, s => s
  | fuel + 1, level, s =>
    if level = 8 * 8 then
      if crc8CheckList (s.adr.take 7) (s.adr.getD 7 0) then
        { s with found := s.found ++ [s.adr] }
      else s
    else
      let a := readResult bus s
      let s1 := pushRead bus s
      let b := readResult bus s1
      let s2 := pushRead bus s1
      if a = 1 ∧ b = 1 then
        s2
      else if a = 0 ∧ b = 1 then
        discoveryDevicesRecursive bus alarmSearch fuel (level + 1)
          (doWriteBit (clearAdrBit s2 level) 0)
      else if a = 1 ∧ b = 0 then
        discoveryDevicesRecursive bus alarmSearch fuel (level + 1)
          (doWriteBit (setAdrBit s2 level) 1)
      else
        let s3 := discoveryDevicesRecursive bus alarmSearch fuel (level + 1)
          (doWriteBit (clearAdrBit s2 level) 0)
        if resetResult bus s3 = false then
          pushReset bus s3
        else
          let s4 := doWriteByteSteps (pushReset bus s3)
            (if alarmSearch then 0xEC else 0xF0)
          let s5 := setAdrBit (replayLoop bus level 0 s4) level
          discoveryDevicesRecursive bus alarmSearch fuel (level + 1)
            (doWriteBit (pushRead bus (pushRead bus s5)) 1)

/-- `discoverDevices(callback, alarmSearch)` (onewire.cpp 286-312).  The
callback pointer is modelled by `hasCallback`; invoking the callback appends
to `found`.  The C function is declared `unsigned int` but its success path
reaches the end of the body without a `return` statement (and the
`discoveredDevices` member it zeroes is never incremented or returned), so
the returned value is modelled as an `Option Nat` that is `none` on the path
that returns no value. -/
def discoverDevices (bus : Bus) (hasCallback alarmSearch : Bool) (s : EnumState) :
    Option Nat × EnumState :=
  if hasCallback = false then
    (some 0, { s with discoveredDevices := 0 })
  else if resetResult bus { s with discoveredDevices := 0, adr := List.replicate 8 0 }
      = false then
    (some 0, pushReset bus { s with discoveredDevices := 0, adr := List.replicate 8 0 })
  else
    (none,
     discoveryDevicesRecursive bus alarmSearch 65 0
       (doWriteByteSteps
         (pushReset bus { s with discoveredDevices := 0, adr := List.replicate 8 0 })
         (if alarmSearch then 0xEC else 0xF0)))

/-- The state in which an enumeration starts: empty history, zeroed
identifier buffer, no reported devices. -/
def initState : EnumState :=
  { hist := [], adr := List.replicate 8 0, found := [], discoveredDevices := 0 }

@[simp] theorem pushRead_found (bus : Bus) (s : EnumState) :
    (pushRead bus s).found = s.found := rfl

@[simp] theorem pushRead_adr (bus : Bus) (s : EnumState) :
    (pushRead bus s).adr = s.adr := rfl

@[simp] theorem doWriteBit_found (s : EnumState) (v : Nat) :
    (doWriteBit s v).found = s.found := rfl

@[simp] theorem doWriteBit_adr (s : EnumState) (v : Nat) :
    (doWriteBit s v).adr = s.adr := rfl

@[simp] theorem pushReset_found (bus : Bus) (s : EnumState) :
    (pushReset bus s).found = s.found := rfl

@[simp] theorem pushReset_adr (bus : Bus) (s : EnumState) :
    (pushReset bus s).adr = s.adr := rfl

@[simp] theorem doWriteByteSteps_found (s : EnumState) (byte : Nat) :
    (doWriteByteSteps s byte).found = s.found := rfl

@[simp] theorem doWriteByteSteps_adr (s : EnumState) (byte : Nat) :
    (doWriteByteSteps s byte).adr = s.adr := rfl

@[simp] theorem clearAdrBit_found (s : EnumState) (level : Nat) :
    (clearAdrBit s level).found = s.found := rfl

@[simp] theorem setAdrBit_found (s : EnumState) (level : Nat) :
    (setAdrBit s level).found = s.found := rfl

@[simp] theorem replayLoop_found (bus : Bus) :
    ∀ r i s, (replayLoop bus r i s).found = s.found := by
  intro r
  induction r with
  | zero => intro i s; rfl
  | succ r ih =>
    intro i s
    exact (ih (i + 1) (doWriteBit (pushRead bus (pushRead bus s)) (adrBit s i))).trans rfl

@[simp] theorem replayLoop_adr (bus : Bus) :
    ∀ r i s, (replayLoop bus r i s).adr = s.adr := by
  intro r
  induction r with
  | zero => intro i s; rfl
  | succ r ih =>
    intro i s
    exact (ih (i + 1) (doWriteBit (pushRead bus (pushRead bus s)) (adrBit s i))).trans rfl

/-- The invariant the enumeration maintains on `adrCurrent`: 8 bytes, each
below 256. -/
def adrInv (s : EnumState) : Prop :=
  s.adr.length = 8 ∧ ∀ x ∈ s.adr, x < 256

theorem adrInv_getD_lt (s : EnumState) (h : adrInv s) (i : Nat) : s.adr.getD i 0 < 256 := by
  by_cases hi : i < s.adr.length
  · rw [List.getD_eq_getElem _ _ hi]
    exact h.2 _ (List.getElem_mem hi)
  · rw [List.getD_eq_default _ _ (le_of_not_lt hi)]
    norm_num

theorem adrInv_clearAdrBit (s : EnumState) (level : Nat) (h : adrInv s) :
    adrInv (clearAdrBit s level) := by
  constructor
  · show (s.adr.set _ _).length = 8
    rw [List.length_set]
    exact h.1
  · intro x hx
    rcases List.mem_or_eq_of_mem_set hx with hmem | heq
    · exact h.2 x hmem
    · rw [heq]
      exact lt_of_le_of_lt Nat.and_le_left (adrInv_getD_lt s h (level / 8))

theorem adrInv_setAdrBit (s : EnumState) (level : Nat) (h : adrInv s) :
    adrInv (setAdrBit s level) := by
  constructor
  · show (s.adr.set _ _).length = 8
    rw [List.length_set]
    exact h.1
  · intro x hx
    rcases List.mem_or_eq_of_mem_set hx with hmem | heq
    · exact h.2 x hmem
    · rw [heq]
      have h1 : s.adr.getD (level / 8) 0 < 2 ^ 8 := by
        simpa using adrInv_getD_lt s h (level / 8)
      have h2 : 1 <<< (level % 8) < 2 ^ 8 := by
        rw [Nat.shiftLeft_eq, one_mul]
        exact Nat.pow_lt_pow_right (by norm_num) (Nat.mod_lt _ (by norm_num))
      simpa using Nat.or_lt_two_pow h1 h2

theorem adrInv_replayLoop (bus : Bus) (r i : Nat) (s : EnumState) (h : adrInv s) :
    adrInv (replayLoop bus r i s) := by
  constructor
  · rw [replayLoop_adr]
    exact h.1
  · rw [replayLoop_adr]
    exact h.2

/-- Unfolding equation for one recursion step of the search. -/
theorem ddr_succ (bus : Bus) (alarm : Bool) (fuel level : Nat) (s : EnumState) :
    discoveryDevicesRecursive bus alarm (fuel + 1) level s =
      if level = 8 * 8 then
        if crc8CheckList (s.adr.take 7) (s.adr.getD 7 0) then
          { s with found := s.found ++ [s.adr] }
        else s
      else if readResult bus s = 1 ∧ readResult bus (pushRead bus s) = 1 then
        pushRead bus (pushRead bus s)
      else if readResult bus s = 0 ∧ readResult bus (pushRead bus s) = 1 then
        discoveryDevicesRecursive bus alarm fuel (level + 1)
          (doWriteBit (clearAdrBit (pushRead bus (pushRead bus s)) level) 0)
      else if readResult bus s = 1 ∧ readResult bus (pushRead bus s) = 0 then
        discoveryDevicesRecursive bus alarm fuel (level + 1)
          (doWriteBit (setAdrBit (pushRead bus (pushRead bus s)) level) 1)
      else
        if resetResult bus (discoveryDevicesRecursive bus alarm fuel (level + 1)
            (doWriteBit (clearAdrBit (pushRead bus (pushRead bus s)) level) 0)) = false then
          pushReset bus (discoveryDevicesRecursive bus alarm fuel (level + 1)
            (doWriteBit (clearAdrBit (pushRead bus (pushRead bus s)) level) 0))
        else
          discoveryDevicesRecursive bus alarm fuel (level + 1)
            (doWriteBit (pushRead bus (pushRead bus
              (setAdrBit (replayLoop bus level 0
                (doWriteByteSteps
                  (pushReset bus (discoveryDevicesRecursive bus alarm fuel (level + 1)
                    (doWriteBit (clearAdrBit (pushRead bus (pushRead bus s)) level) 0)))
                  (if alarm then 0xEC else 0xF0))) level))) 1) := rfl

/-- Everything the search appends to `found` is a CRC-valid 8-byte
identifier, and the `adrCurrent` invariant is maintained. -/
theorem ddr_found_spec (bus : Bus) (alarm : Bool) :
    ∀ fuel level s, adrInv s →
      ∃ t, (discoveryDevicesRecursive bus alarm fuel level s).found = s.found ++ t
        ∧ (∀ id ∈ t, id.length = 8 ∧ (∀ x ∈ id, x < 256)
            ∧ crc8CheckList (id.take 7) (id.getD 7 0) = true)
        ∧ adrInv (discoveryDevicesRecursive bus alarm fuel level s) := by
  intro fuel
  induction fuel with
  | zero =>
    intro level s hinv
    exact ⟨[], by simp [discoveryDevicesRecursive],
      by intro id hid; exact absurd hid (List.not_mem_nil id), hinv⟩
  | succ fuel ih =>
    intro level s hinv
    rw [ddr_succ]
    by_cases hl : level = 8 * 8
    · rw [if_pos hl]
      by_cases hcrc : crc8CheckList (s.adr.take 7) (s.adr.getD 7 0) = true
      · rw [if_pos hcrc]
        refine ⟨[s.adr], rfl, ?_, hinv⟩
        intro id hid
        rw [List.mem_singleton] at hid
        rw [hid]
        exact ⟨hinv.1, hinv.2, hcrc⟩
      · rw [if_neg hcrc]
        exact ⟨[], by simp,
          by intro id hid; exact absurd hid (List.not_mem_nil id), hinv⟩
    · rw [if_neg hl]
      have hinv2 : adrInv (pushRead bus (pushRead bus s)) := hinv
      by_cases h11 : readResult bus s = 1 ∧ readResult bus (pushRead bus s) = 1
      · rw [if_pos h11]
        exact ⟨[], by simp,
          by intro id hid; exact absurd hid (List.not_mem_nil id), hinv2⟩
      · rw [if_neg h11]
        by_cases h01 : readResult bus s = 0 ∧ readResult bus (pushRead bus s) = 1
        · rw [if_pos h01]
          have hinv3 : adrInv (doWriteBit (clearAdrBit (pushRead bus (pushRead bus s)) level) 0) :=
            adrInv_clearAdrBit _ level hinv2
          obtain ⟨t, hfound, hprops, hinvr⟩ := ih (level + 1) _ hinv3
          refine ⟨t, ?_, hprops, hinvr⟩
          rw [hfound]
          simp
        · rw [if_neg h01]
          by_cases h10 : readResult bus s = 1 ∧ readResult bus (pushRead bus s) = 0
          · rw [if_pos h10]
            have hinv3 : adrInv (doWriteBit (setAdrBit (pushRead bus (pushRead bus s)) level) 1) :=
              adrInv_setAdrBit _ level hinv2
            obtain ⟨t, hfound, hprops, hinvr⟩ := ih (level + 1) _ hinv3
            refine ⟨t, ?_, hprops, hinvr⟩
            rw [hfound]
            simp
          · rw [if_neg h10]
            have hinv3 : adrInv (doWriteBit (clearAdrBit (pushRead bus (pushRead bus s)) level) 0) :=
              adrInv_clearAdrBit _ level hinv2
            obtain ⟨t1, hfound1, hprops1, hinvr1⟩ := ih (level + 1) _ hinv3
            by_cases hrst : resetResult bus (discoveryDevicesRecursive bus alarm fuel (level + 1)
                (doWriteBit (clearAdrBit (pushRead bus (pushRead bus s)) level) 0)) = false
            · rw [if_pos hrst]
              refine ⟨t1, ?_, hprops1, hinvr1⟩
              rw [pushReset_found, hfound1]
              simp
            · rw [if_neg hrst]
              have hinv4 : adrInv (doWriteBit (pushRead bus (pushRead bus
                  (setAdrBit (replayLoop bus level 0
                    (doWriteByteSteps
                      (pushReset bus (discoveryDevicesRecursive bus alarm fuel (level + 1)
                        (doWriteBit (clearAdrBit (pushRead bus (pushRead bus s)) level) 0)))
                      (if alarm then 0xEC else 0xF0))) level))) 1) :=
                adrInv_setAdrBit _ level (adrInv_replayLoop bus level 0 _ hinvr1)
              obtain ⟨t2, hfound2, hprops2, hinvr2⟩ := ih (level + 1) _ hinv4
              refine ⟨t1 ++ t2, ?_, ?_, hinvr2⟩
              · rw [hfound2]
                simp only [doWriteBit_found, pushRead_found, setAdrBit_found,
                  replayLoop_found, doWriteByteSteps_found, pushReset_found]
                rw [hfound1]
                simp [List.append_assoc]
              · intro id hid
                rcases List.mem_append.mp hid with h1 | h2
                · exact hprops1 id h1
                · exact hprops2 id h2

theorem pushReset_hist (bus : Bus) (s : EnumState) :
    (pushReset bus s).hist = s.hist ++ [Step.reset (resetResult bus s)] := rfl

theorem pushRead_hist (bus : Bus) (s : EnumState) :
    (pushRead bus s).hist = s.hist ++ [Step.readBit (readResult bus s)] := rfl

theorem doWriteBit_hist (s : EnumState) (v : Nat) :
    (doWriteBit s v).hist = s.hist ++ [Step.writeBit (if v ≠ 0 then 1 else 0)] := rfl

theorem clearAdrBit_hist (s : EnumState) (level : Nat) :
    (clearAdrBit s level).hist = s.hist ++ [Step.record level 0] := rfl

theorem setAdrBit_hist (s : EnumState) (level : Nat) :
    (setAdrBit s level).hist = s.hist ++ [Step.record level 1] := rfl

theorem doWriteByteSteps_hist (s : EnumState) (byte : Nat) :
    (doWriteByteSteps s byte).hist = s.hist ++ (writeByteBits byte).map Step.writeBit := rfl

theorem adrBit_pushRead (bus : Bus) (s : EnumState) (k : Nat) :
    adrBit (pushRead bus s) k = adrBit s k := rfl

theorem adrBit_doWriteBit (s : EnumState) (v k : Nat) :
    adrBit (doWriteBit s v) k = adrBit s k := rfl

theorem adrBit_pushReset (bus : Bus) (s : EnumState) (k : Nat) :
    adrBit (pushReset bus s) k = adrBit s k := rfl

theorem adrBit_doWriteByteSteps (s : EnumState) (byte k : Nat) :
    adrBit (doWriteByteSteps s byte) k = adrBit s k := rfl

/-- `adrBit` already yields 0 or 1, so the normalization `writeBit` applies
to its argument is the identity on it. -/
theorem adrBit_norm (s : EnumState) (i : Nat) :
    (if adrBit s i ≠ 0 then 1 else 0) = adrBit s i := by
  unfold adrBit
  by_cases h : (s.adr.getD (i / 8) 0) &&& (1 <<< (i % 8)) = 0 <;> simp [h]

/-- The replay loop performs, for each of the `r` depths starting at `i`,
exactly a read, a read, and a write of the bit recorded in `adrCurrent` at
that depth, in that order (`av j`/`bv j` are the two levels the bus happened
to answer for the discarded pair at depth `i + j`). -/
theorem replayLoop_hist (bus : Bus) :
    ∀ r i s, ∃ av bv : Nat → Nat,
      (replayLoop bus r i s).hist =
        s.hist ++ ((List.range r).map (fun j =>
          [Step.readBit (av j), Step.readBit (bv j),
           Step.writeBit (adrBit s (i + j))])).flatten := by
  intro r
  induction r with
  | zero =>
    intro i s
    refine ⟨fun _ => 0, fun _ => 0, ?_⟩
    rw [show replayLoop bus 0 i s = s from rfl]
    simp
  | succ r ih =>
    intro i s
    obtain ⟨av, bv, hseg⟩ :=
      ih (i + 1) (doWriteBit (pushRead bus (pushRead bus s)) (adrBit s i))
    refine ⟨fun j => if j = 0 then readResult bus s else av (j - 1),
            fun j => if j = 0 then readResult bus (pushRead bus s) else bv (j - 1), ?_⟩
    rw [show replayLoop bus (r + 1) i s =
        replayLoop bus r (i + 1) (doWriteBit (pushRead bus (pushRead bus s)) (adrBit s i))
      from rfl]
    rw [hseg, doWriteBit_hist, pushRead_hist, pushRead_hist, adrBit_norm]
    rw [List.range_succ_eq_map]
    have harith : ∀ j : Nat, i + 1 + j = i + (j + 1) := by intro j; omega
    simp only [List.map_cons, List.flatten_cons, List.map_map, Function.comp,
      adrBit_doWriteBit, adrBit_pushRead, harith]
    simp [List.append_assoc]
    congr 1

theorem crcFold_singleton (c x : Nat) : crcFold c [x] = crcUpdate8 c x := rfl

/-- An 8-byte list splits into its first 7 bytes and its trailing byte. -/
theorem list8_decomp (id : List Nat) (h : id.length = 8) :
    id = id.take 7 ++ [id.getD 7 0] := by
  have hlen : (id.drop 7).length = 1 := by rw [List.length_drop, h]
  obtain ⟨a, ha⟩ := List.length_eq_one.mp hlen
  have hgetD : id.getD 7 0 = a := by
    rw [List.getD_eq_getElem?_getD]
    have h7 : id[7]? = (id.drop 7)[0]? := by
      rw [List.getElem?_drop]
    rw [h7, ha]
    rfl
  rw [hgetD]
  conv_lhs => rw [← List.take_append_drop 7 id]
  rw [ha]

theorem crc8CheckList_eq_zero {d : List Nat} {c : Nat} (h : crc8CheckList d c = true) :
    crcUpdate8 (crcFold 0 d) c = 0 := by
  simpa [crc8CheckList] using h

/-- C5: at recursion depth 64 the search validates the completed 8-byte
identifier — all 8 bytes, trailing checksum byte included, must fold to
zero — and hands it to the callback only when validation succeeds; on every
simulated bus, an identifier whose trailing byte is not the CRC-8 checksum of
its first 7 bytes never reaches the callback. -/
theorem claim_C5_crc_gate (bus : Bus) (alarm : Bool) (fuel level : Nat) (s : EnumState)
    (hfound : s.found = []) (hinv : adrInv s) :
    (∀ id ∈ (discoveryDevicesRecursive bus alarm fuel level s).found, crcFold 0 id = 0)
    ∧ ∀ id : List Nat, id.getD 7 0 ≠ crcFold 0 (id.take 7) →
        id ∉ (discoveryDevicesRecursive bus alarm fuel level s).found := by
  obtain ⟨t, hfnd, hprops, _⟩ := ddr_found_spec bus alarm fuel level s hinv
  rw [hfnd, hfound, List.nil_append]
  constructor
  · intro id hid
    obtain ⟨h8, _, hcrc⟩ := hprops id hid
    have hzero := crc8CheckList_eq_zero hcrc
    calc crcFold 0 id = crcFold 0 (id.take 7 ++ [id.getD 7 0]) := by
          rw [← list8_decomp id h8]
      _ = crcUpdate8 (crcFold 0 (id.take 7)) (id.getD 7 0) := by
          rw [crcFold_append, crcFold_singleton]
      _ = 0 := hzero
  · intro id hne hid
    obtain ⟨h8, hb, hcrc⟩ := hprops id hid
    have hzero := crc8CheckList_eq_zero hcrc
    have hlt : id.getD 7 0 < 256 := by
      rw [List.getD_eq_getElem _ _ (show 7 < id.length by omega)]
      exact hb _ (List.getElem_mem (by omega))
    have hfoldlt : crcFold 0 (id.take 7) < 256 := crcFold_lt _ 0 (by norm_num)
    exact hne ((crcUpdate8_eq_zero_iff _ _ hfoldlt hlt).mp hzero)

/-- A simple bus for the C5 witness: every bit read samples low, every reset
sees a presence pulse. -/
def c5Bus : Bus := ⟨fun _ => false, fun _ => true⟩

set_option maxRecDepth 8192 in
/-- Witness for C5: on `c5Bus`, starting from the fresh state, every reported
identifier folds to zero, and the identifier `[1,0,0,0,0,0,0,0]` — whose
trailing byte 0 is not the checksum of its first 7 bytes — is never
reported. -/
theorem claim_C5_witness :
    (∀ id ∈ (discoveryDevicesRecursive c5Bus false 65 0 initState).found, crcFold 0 id = 0)
    ∧ [1, 0, 0, 0, 0, 0, 0, 0] ∉ (discoveryDevicesRecursive c5Bus false 65 0 initState).found := by
  have h := claim_C5_crc_gate c5Bus false 65 0 initState rfl ⟨rfl, by decide⟩
  exact ⟨h.1, h.2 [1, 0, 0, 0, 0, 0, 0, 0] (by decide)⟩

/-- C7: when the replay reset of the collision branch fails (before the 1
branch is taken), the call returns immediately — its step history is the
history at the failed reset with only the `reset false` step appended, so no
further bits are written on that branch and no error is surfaced — and the
identifiers reported before the failure are kept (`found` extends the list
from before the call). -/
theorem claim_C7_reset_abort (bus : Bus) (alarm : Bool) (fuel level : Nat) (s : EnumState)
    (hlevel : level ≠ 8 * 8)
    (ha : readResult bus s = 0)
    (hb : readResult bus (pushRead bus s) = 0)
    (hinv : adrInv s)
    (hrst : resetResult bus (discoveryDevicesRecursive bus alarm fuel (level + 1)
      (doWriteBit (clearAdrBit (pushRead bus (pushRead bus s)) level) 0)) = false) :
    (discoveryDevicesRecursive bus alarm (fuel + 1) level s).hist =
      (discoveryDevicesRecursive bus alarm fuel (level + 1)
        (doWriteBit (clearAdrBit (pushRead bus (pushRead bus s)) level) 0)).hist
        ++ [Step.reset false]
    ∧ (discoveryDevicesRecursive bus alarm (fuel + 1) level s).found =
      (discoveryDevicesRecursive bus alarm fuel (level + 1)
        (doWriteBit (clearAdrBit (pushRead bus (pushRead bus s)) level) 0)).found
    ∧ ∃ t, (discoveryDevicesRecursive bus alarm (fuel + 1) level s).found = s.found ++ t := by
  have hval : discoveryDevicesRecursive bus alarm (fuel + 1) level s =
      pushReset bus (discoveryDevicesRecursive bus alarm fuel (level + 1)
        (doWriteBit (clearAdrBit (pushRead bus (pushRead bus s)) level) 0)) := by
    rw [ddr_succ, if_neg hlevel, if_neg (by simp [ha]), if_neg (by simp [hb]),
      if_neg (by simp [ha]), if_pos hrst]
  refine ⟨?_, ?_, ?_⟩
  · rw [hval, pushReset_hist, hrst]
  · rw [hval, pushReset_found]
  · obtain ⟨t, hfnd, _, _⟩ := ddr_found_spec bus alarm (fuel + 1) level s hinv
    exact ⟨t, hfnd⟩

/-- A bus for the C7 witness: every bit read samples low (so every depth is a
collision) and every reset fails. -/
def c7Bus : Bus := ⟨fun _ => false, fun _ => false⟩

/-- Witness for C7 on `c7Bus` at depth 0 from the fresh state. -/
theorem claim_C7_witness :
    (discoveryDevicesRecursive c7Bus false 65 0 initState).hist =
      (discoveryDevicesRecursive c7Bus false 64 1
        (doWriteBit (clearAdrBit (pushRead c7Bus (pushRead c7Bus initState)) 0) 0)).hist
        ++ [Step.reset false]
    ∧ (discoveryDevicesRecursive c7Bus false 65 0 initState).found =
      (discoveryDevicesRecursive c7Bus false 64 1
        (doWriteBit (clearAdrBit (pushRead c7Bus (pushRead c7Bus initState)) 0) 0)).found
    ∧ ∃ t, (discoveryDevicesRecursive c7Bus false 65 0 initState).found =
        initState.found ++ t :=
  claim_C7_reset_abort c7Bus false 64 0 initState (by decide) rfl rfl ⟨rfl, by decide⟩ rfl

/-- The bus for the C2 scenario: depth 0 reads `(0,1)` (decided 0), depth 1
reads `(0,0)` (collision); the 0 branch dead-ends at depth 2 with `(1,1)`;
the replay reset reports presence; the discarded replay and re-read pairs
sample low; the 1 branch dead-ends at depth 2 with `(1,1)`.  The responses
are keyed by the length of the step history at each read. -/
def c2Bus : Bus :=
  ⟨fun h => decide (h.length = 1 ∨ h.length = 8 ∨ h.length = 9 ∨ h.length = 26 ∨ h.length = 27),
   fun _ => true⟩

/-- Modelled from the claim's words, for the `c2Bus` run: after the 0 branch
of the collision at depth 1 returns, re-issue reset and the search command,
replay depth 0 (read and discard a pair, write back the recorded bit), *then
read and discard one more pair at depth 1, then record 1*, write 1 and
recurse — i.e. with the recording placed after the discarded pair, as the
claim orders the steps. -/
def c2ClaimedSteps : List Step :=
  [Step.readBit 0, Step.readBit 1, Step.record 0 0, Step.writeBit 0,
   Step.readBit 0, Step.readBit 0, Step.record 1 0, Step.writeBit 0,
   Step.readBit 1, Step.readBit 1,
   Step.reset true,
   Step.writeBit 0, Step.writeBit 0, Step.writeBit 0, Step.writeBit 0,
   Step.writeBit 1, Step.writeBit 1, Step.writeBit 1, Step.writeBit 1,
   Step.readBit 0, Step.readBit 0, Step.writeBit 0,
   Step.readBit 0, Step.readBit 0, Step.record 1 1,
   Step.writeBit 1,
   Step.readBit 1, Step.readBit 1]

set_option maxHeartbeats 8000000 in
set_option maxRecDepth 65536 in
/-- Counterexample to C2 as stated: on `c2Bus` the search does *not* perform
the claimed step order — the claim places the recording of bit 1 after the
discarded bit/complement pair at the collision depth, but the code
(onewire.cpp 403-406) records the bit before discarding the pair. -/
theorem claim_C2_counterexample :
    (discoveryDevicesRecursive c2Bus false 65 0 initState).hist ≠ c2ClaimedSteps := by
  decide

set_option maxHeartbeats 8000000 in
set_option maxRecDepth 65536 in
/-- The complete step trace of the `c2Bus` run: a concrete instance of the
collision handling, whose only difference from the claimed order
(`c2ClaimedSteps`) is `record 1 1` preceding the last discarded
bit/complement pair. -/
theorem c2Bus_run_trace :
    (discoveryDevicesRecursive c2Bus false 65 0 initState).hist =
      [Step.readBit 0, Step.readBit 1, Step.record 0 0, Step.writeBit 0,
       Step.readBit 0, Step.readBit 0, Step.record 1 0, Step.writeBit 0,
       Step.readBit 1, Step.readBit 1,
       Step.reset true,
       Step.writeBit 0, Step.writeBit 0, Step.writeBit 0, Step.writeBit 0,
       Step.writeBit 1, Step.writeBit 1, Step.writeBit 1, Step.writeBit 1,
       Step.readBit 0, Step.readBit 0, Step.writeBit 0,
       Step.record 1 1,
       Step.readBit 0, Step.readBit 0,
       Step.writeBit 1,
       Step.readBit 1, Step.readBit 1] := by
  decide

/-- C2 (amended): whenever the enumerator reads `a = 0, b = 0` at depth
`level` — on every bus, from every state, at every depth, in both search
modes — it performs the collision steps in this order.  First conjunct: right
after the two collision reads it records 0 at bit `level` and writes 0; the
state so built is the one the 0-branch recursion at `level + 1` receives.
Second conjunct: the whole call reduces to the 1-branch recursion at
`level + 1` on the state built — in data-flow order — from the 0-branch
result `S3` by the replay reset, the search command, the replay loop, the
record of 1, the two discarded reads and the write of 1.  Third conjunct:
the step history of that state is `S3`'s history followed by exactly
`reset true`, the 8 bits of the search command (`0xEC` alarm, `0xF0` normal),
one read/read/write-back-recorded-bit block per depth `0..level-1`, and then
`record level 1` *before* the final discarded bit/complement pair (which is
not re-validated as a collision) and the write of 1. -/
theorem claim_C2_collision_order (bus : Bus) (alarm : Bool) (fuel level : Nat)
    (s : EnumState)
    (hlevel : level ≠ 8 * 8)
    (ha : readResult bus s = 0)
    (hb : readResult bus (pushRead bus s) = 0)
    (hrst : resetResult bus (discoveryDevicesRecursive bus alarm fuel (level + 1)
      (doWriteBit (clearAdrBit (pushRead bus (pushRead bus s)) level) 0)) = true) :
    (doWriteBit (clearAdrBit (pushRead bus (pushRead bus s)) level) 0).hist =
      s.hist ++ [Step.readBit 0, Step.readBit 0, Step.record level 0, Step.writeBit 0]
    ∧ discoveryDevicesRecursive bus alarm (fuel + 1) level s =
      discoveryDevicesRecursive bus alarm fuel (level + 1)
        (doWriteBit (pushRead bus (pushRead bus
          (setAdrBit (replayLoop bus level 0
            (doWriteByteSteps
              (pushReset bus (discoveryDevicesRecursive bus alarm fuel (level + 1)
                (doWriteBit (clearAdrBit (pushRead bus (pushRead bus s)) level) 0)))
              (if alarm then 0xEC else 0xF0))) level))) 1)
    ∧ ∃ (av bv : Nat → Nat) (x y : Nat),
      (doWriteBit (pushRead bus (pushRead bus
        (setAdrBit (replayLoop bus level 0
          (doWriteByteSteps
            (pushReset bus (discoveryDevicesRecursive bus alarm fuel (level + 1)
              (doWriteBit (clearAdrBit (pushRead bus (pushRead bus s)) level) 0)))
            (if alarm then 0xEC else 0xF0))) level))) 1).hist =
        (discoveryDevicesRecursive bus alarm fuel (level + 1)
          (doWriteBit (clearAdrBit (pushRead bus (pushRead bus s)) level) 0)).hist
        ++ [Step.reset true]
        ++ (writeByteBits (if alarm then 0xEC else 0xF0)).map Step.writeBit
        ++ ((List.range level).map (fun j =>
            [Step.readBit (av j), Step.readBit (bv j),
             Step.writeBit (adrBit (discoveryDevicesRecursive bus alarm fuel (level + 1)
               (doWriteBit (clearAdrBit (pushRead bus (pushRead bus s)) level) 0)) j)])).flatten
        ++ [Step.record level 1, Step.readBit x, Step.readBit y, Step.writeBit 1] := by
  refine ⟨?_, ?_, ?_⟩
  · rw [doWriteBit_hist, clearAdrBit_hist, pushRead_hist, pushRead_hist, ha, hb]
    simp [List.append_assoc]
  · rw [ddr_succ, if_neg hlevel, if_neg (by simp [ha]), if_neg (by simp [hb]),
      if_neg (by simp [ha]), if_neg (by simp [hrst])]
  · obtain ⟨av, bv, hseg⟩ := replayLoop_hist bus level 0
      (doWriteByteSteps
        (pushReset bus (discoveryDevicesRecursive bus alarm fuel (level + 1)
          (doWriteBit (clearAdrBit (pushRead bus (pushRead bus s)) level) 0)))
        (if alarm then 0xEC else 0xF0))
    refine ⟨av, bv,
      readResult bus (setAdrBit (replayLoop bus level 0
        (doWriteByteSteps
          (pushReset bus (discoveryDevicesRecursive bus alarm fuel (level + 1)
            (doWriteBit (clearAdrBit (pushRead bus (pushRead bus s)) level) 0)))
          (if alarm then 0xEC else 0xF0))) level),
      readResult bus (pushRead bus (setAdrBit (replayLoop bus level 0
        (doWriteByteSteps
          (pushReset bus (discoveryDevicesRecursive bus alarm fuel (level + 1)
            (doWriteBit (clearAdrBit (pushRead bus (pushRead bus s)) level) 0)))
          (if alarm then 0xEC else 0xF0))) level)), ?_⟩
    rw [doWriteBit_hist, pushRead_hist, pushRead_hist, setAdrBit_hist, hseg,
      doWriteByteSteps_hist, pushReset_hist, hrst]
    simp only [adrBit_doWriteByteSteps, adrBit_pushReset, Nat.zero_add]
    simp [List.append_assoc]

/-- A bus for the C2 witness: every bit read samples low (so level 0 is a
collision) and every reset reports presence. -/
def c2GeneralBus : Bus := ⟨fun _ => false, fun _ => true⟩

/-- Witness for C2 (amended) on `c2GeneralBus` at depth 0 from the fresh
state, in alarm-search mode (command byte `0xEC`). -/
theorem claim_C2_witness :
    (doWriteBit (clearAdrBit (pushRead c2GeneralBus (pushRead c2GeneralBus initState)) 0) 0).hist =
      initState.hist ++ [Step.readBit 0, Step.readBit 0, Step.record 0 0, Step.writeBit 0]
    ∧ discoveryDevicesRecursive c2GeneralBus true 65 0 initState =
      discoveryDevicesRecursive c2GeneralBus true 64 1
        (doWriteBit (pushRead c2GeneralBus (pushRead c2GeneralBus
          (setAdrBit (replayLoop c2GeneralBus 0 0
            (doWriteByteSteps
              (pushReset c2GeneralBus (discoveryDevicesRecursive c2GeneralBus true 64 1
                (doWriteBit (clearAdrBit
                  (pushRead c2GeneralBus (pushRead c2GeneralBus initState)) 0) 0)))
              0xEC)) 0))) 1)
    ∧ ∃ (av bv : Nat → Nat) (x y : Nat),
      (doWriteBit (pushRead c2GeneralBus (pushRead c2GeneralBus
        (setAdrBit (replayLoop c2GeneralBus 0 0
          (doWriteByteSteps
            (pushReset c2GeneralBus (discoveryDevicesRecursive c2GeneralBus true 64 1
              (doWriteBit (clearAdrBit
                (pushRead c2GeneralBus (pushRead c2GeneralBus initState)) 0) 0)))
            0xEC)) 0))) 1).hist =
        (discoveryDevicesRecursive c2GeneralBus true 64 1
          (doWriteBit (clearAdrBit
            (pushRead c2GeneralBus (pushRead c2GeneralBus initState)) 0) 0)).hist
        ++ [Step.reset true]
        ++ (writeByteBits 0xEC).map Step.writeBit
        ++ ((List.range 0).map (fun j =>
            [Step.readBit (av j), Step.readBit (bv j),
             Step.writeBit (adrBit (discoveryDevicesRecursive c2GeneralBus true 64 1
               (doWriteBit (clearAdrBit
                 (pushRead c2GeneralBus (pushRead c2GeneralBus initState)) 0) 0)) j)])).flatten
        ++ [Step.record 0 1, Step.readBit x, Step.readBit y, Step.writeBit 1] :=
  claim_C2_collision_order c2GeneralBus true 64 0 initState (by decide) rfl rfl rfl

/-- The bus for the C1 success scenario: a single device whose identifier is
the (CRC-valid) all-zero ROM id — at every depth the bit/complement pair
reads `(0, 1)`.  Responses are keyed by the history length: the first read of
each depth happens at history length `≡ 1 (mod 4)` and samples 0, the second
at length `≡ 2 (mod 4)` and samples 1. -/
def c1Bus : Bus := ⟨fun h => decide (h.length % 4 = 2), fun _ => true⟩

/-- A bus on which the initial reset finds no devices. -/
def c1NoDeviceBus : Bus := ⟨fun _ => false, fun _ => false⟩

set_option maxHeartbeats 16000000 in
set_option maxRecDepth 65536 in
/-- C1: `discoverDevices` with a null callback returns 0 immediately with no
bus activity, and returns 0 when the initial reset finds no presence; but on
the success path the claim fails: the C function (declared `unsigned int`)
reaches the end of its body without a `return` statement, so it returns no
value at all (`none` in the embedding) — on `c1Bus` one CRC-valid identifier
is reported to the callback, yet nothing returns that count, and the
`discoveredDevices` member stays 0 (it is never incremented nor returned). -/
theorem claim_C1_return_value :
    (discoverDevices c1Bus false false initState).1 = some 0
    ∧ (discoverDevices c1Bus false false initState).2.hist = []
    ∧ (discoverDevices c1NoDeviceBus true false initState).1 = some 0
    ∧ (discoverDevices c1Bus true false initState).1 = none
    ∧ (discoverDevices c1Bus true false initState).2.found = [List.replicate 8 0]
    ∧ (discoverDevices c1Bus true false initState).2.discoveredDevices = 0 := by
  refine ⟨rfl, rfl, rfl, ?_, ?_, ?_⟩ <;> decide

end OneWire
